import Mathlib

/-!
Verification of the knowledge-graph pipeline (src/main.py, src/qa.py).

The repository's own code is orchestration around external capabilities
(an LLM extractor/generator/synthesizer and a Neo4j graph store).  We give a
shallow embedding: pure Python helpers become Lean functions; the external
calls become oracle parameters returning `Except`; the fixed Cypher statements
the code issues are interpreted over an explicit graph model following
standard Cypher semantics (MERGE matches on the given property map, CREATE is
unconditional but subject to uniqueness constraints, aggregations over zero
rows return a single zero row, `OPTIONAL MATCH` of an independent pattern
forms a cross product with the rows so far).
-/

namespace KG

/-! ## Environment loader (`setup_environment`, src/main.py:25-31 and
src/qa.py:23-29; both copies are identical).

The process environment is a partial map from variable names to strings;
`os.getenv` returns `None` for an absent variable.  Python's
`if not os.getenv(var)` is true when the variable is absent or bound to the
empty string.  The subsequent `os.environ[var] = os.getenv(var)` rebinds the
variable to its own value and does not change the environment. -/

abbrev Env := String → Option String

def required_vars : List String :=
  ["OPENAI_API_KEY", "NEO4J_URI", "NEO4J_USERNAME", "NEO4J_PASSWORD"]

def envMissing (env : Env) (v : String) : Bool :=
  match env v with
  | none => true
  | some s => s = ""

def checkVars (env : Env) : List String → Except String Unit
  | [] => .ok ()
  | v :: vs =>
      if envMissing env v then
        .error ("Variável de ambiente " ++ v ++ " não encontrada")
      else
        checkVars env vs

def setup_environment (env : Env) : Except String Unit :=
  checkVars env required_vars

/-- `v` is the first variable of `vars` that is missing or empty in `env`. -/
def firstMissing (env : Env) : List String → Option String
  | [] => none
  | v :: vs => if envMissing env v then some v else firstMissing env vs

/-! ## Question answering (`StarWarsQASystem`, src/qa.py).

The LLM calls (Cypher generation, answer synthesis) and the Neo4j query
execution are external, fallible capabilities; they are oracle parameters
returning `Except`.  `setup_qa_chain` (src/qa.py:108-122) builds a
`GraphCypherQAChain` with `top_k := 10` and `return_intermediate_steps`;
the chain generates a Cypher query, executes it, truncates the result rows
to `top_k`, synthesizes an answer, and reports intermediate steps
`[{query: cypher}, {context: rows}]`.  The chain body lives in the
third-party library, so `chainInvoke` is modelled from the spec
(§4.7: execute the query "retrieving at most a capped number of result
rows (top-K limit, default 10)"); `qa_top_k` itself is the value set in
`setup_qa_chain`. -/

/-- A result row of a Cypher query, as a property map. -/
abbrev Row := List (String × String)

/-- One intermediate step reported by the chain: a dict that may carry a
`query` key and/or a `context` key (src/qa.py:158-164 inspects both). -/
structure Step where
  query : Option String
  context : Option (List Row)
deriving DecidableEq

/-- The chain's response dict: the final `result` plus `intermediate_steps`. -/
structure ChainResponse where
  result : String
  intermediate_steps : List Step
deriving DecidableEq

/-- The external capabilities `ask_with_context` depends on, plus the token
and cost totals that the `get_openai_callback` context manager reports for a
successful run. -/
structure QAOracles where
  genCypher : String → Except String String
  runQuery : String → Except String (List Row)
  synthesize : String → List Row → Except String String
  cb_total_tokens : Nat
  cb_total_cost : Rat

/-- `top_k=10` passed to `GraphCypherQAChain.from_llm` (src/qa.py:120). -/
def qa_top_k : Nat := 10

/-- Modelled from the spec: the third-party `GraphCypherQAChain` invocation
(not under src/) — generate a Cypher query, run it, keep at most `top_k`
rows as context, synthesize the answer, and report intermediate steps. -/
def chainInvoke (o : QAOracles) (top_k : Nat) (question : String) :
    Except String ChainResponse :=
  match o.genCypher question with
  | .error e => .error e
  | .ok cypher =>
      match o.runQuery cypher with
      | .error e => .error e
      | .ok rows =>
          let context := rows.take top_k
          match o.synthesize question context with
          | .error e => .error e
          | .ok answer =>
              .ok ⟨answer, [⟨some cypher, none⟩, ⟨none, some context⟩]⟩

/-- The result dict built by `ask_with_context` (src/qa.py:166-173 and
180-187). -/
structure AnswerResult where
  question : String
  answer : String
  cypher_query : String
  raw_results : List Row
  tokens_used : Nat
  cost : Rat
deriving DecidableEq

/-- The loop over `intermediate_steps` (src/qa.py:158-164): start from
`cypher_query = ""` and `raw_results = []`, and overwrite them with the
`query` / `context` entries of each step that carries them. -/
def extractSteps (steps : List Step) : String × List Row :=
  steps.foldl
    (fun acc step =>
      let c := match step.query with | some q => q | none => acc.1
      let r := match step.context with | some ctx => ctx | none => acc.2
      (c, r))
    ("", [])

/-- `ask_with_context` (src/qa.py:146-187): invoke the chain inside a
`try`/`except`; on success assemble the result dict from the response and the
callback counters, on any failure return the degraded dict with the
error-describing answer, empty query, empty rows and zero counters. -/
def ask_with_context (o : QAOracles) (question : String) : AnswerResult :=
  match chainInvoke o qa_top_k question with
  | .ok resp =>
      let ex := extractSteps resp.intermediate_steps
      { question := question
        answer := resp.result
        cypher_query := ex.1
        raw_results := ex.2
        tokens_used := o.cb_total_tokens
        cost := o.cb_total_cost }
  | .error e =>
      { question := question
        answer := "Erro ao processar pergunta: " ++ e
        cypher_query := ""
        raw_results := []
        tokens_used := 0
        cost := 0 }

/-- `ask_simple` (src/qa.py:189-192). -/
def ask_simple (o : QAOracles) (question : String) : String :=
  (ask_with_context o question).answer

/-! ## Chunk ingestion loop (`process_chunks_to_graph`, src/main.py:132-161).

The extractor (`transformer.convert_to_graph_documents`) and the Neo4j write
(`graph.add_graph_documents`) are external fallible calls, modelled as
oracles.  The Neo4j state is an abstract type `γ`.  Note the order inside the
`try` block: the entity/relationship counters are incremented from the
extracted documents *before* `add_graph_documents` is called. -/

/-- A graph document produced by one extraction call: its node list and
relationship list (only their lengths matter to the counting loop). -/
structure GraphDoc where
  nodes : List String
  relationships : List String
deriving DecidableEq

/-- The loop state: the Neo4j state plus the two running counters. -/
structure IngestState (γ : Type) where
  graph : γ
  total_entities : Nat
  total_relationships : Nat

/-- One iteration of the `for i, chunk in enumerate(chunks)` loop
(src/main.py:137-158): the whole body is inside `try`/`except Exception:
continue`, so an extraction failure leaves the state unchanged, and a write
failure keeps the already-incremented counters. -/
def processOneChunk {γ : Type}
    (transformer : String → Except String (List GraphDoc))
    (addDocs : γ → List GraphDoc → Except String γ)
    (st : IngestState γ) (chunk : String) : IngestState γ :=
  match transformer chunk with
  | .error _ => st
  | .ok gdocs =>
      let ents := st.total_entities + (gdocs.map (·.nodes.length)).sum
      let rels := st.total_relationships + (gdocs.map (·.relationships.length)).sum
      match addDocs st.graph gdocs with
      | .error _ => ⟨st.graph, ents, rels⟩
      | .ok g' => ⟨g', ents, rels⟩

/-- The whole loop, started from zero counters. -/
def ingestLoop {γ : Type}
    (transformer : String → Except String (List GraphDoc))
    (addDocs : γ → List GraphDoc → Except String γ)
    (g0 : γ) (chunks : List String) : IngestState γ :=
  chunks.foldl (processOneChunk transformer addDocs) ⟨g0, 0, 0⟩

/-- `process_chunks_to_graph` returns `total_entities + total_relationships`
(src/main.py:161). -/
def process_chunks_to_graph {γ : Type}
    (transformer : String → Except String (List GraphDoc))
    (addDocs : γ → List GraphDoc → Except String γ)
    (g0 : γ) (chunks : List String) : Nat :=
  let st := ingestLoop transformer addDocs g0 chunks
  st.total_entities + st.total_relationships

/-- The entity/relationship counts one chunk contributes to the totals:
the extracted counts when extraction succeeds, nothing when it fails. -/
def chunkContribution (transformer : String → Except String (List GraphDoc))
    (c : String) : Nat × Nat :=
  match transformer c with
  | .ok gdocs => ((gdocs.map (·.nodes.length)).sum,
                  (gdocs.map (·.relationships.length)).sum)
  | .error _ => (0, 0)

/-- A one-chunk scenario: extraction finds one entity, the graph write
always fails. -/
def demoTransformer (c : String) : Except String (List GraphDoc) :=
  if c = "c0" then .ok [⟨["Luke Skywalker"], []⟩] else .ok []

/-- A Neo4j write that always fails (e.g. the database went away). -/
def demoAddFail (_g : Nat) (_docs : List GraphDoc) : Except String Nat :=
  .error "ServiceUnavailable"

/-! ## Graph store model.

The fixed Cypher statements the code issues (schema setup, manual facts,
statistics) are interpreted over an explicit graph: nodes carry one label and
a property map, relationships are typed directed edges between node ids,
and the store also records its uniqueness constraints and indexes.
Semantics follows Cypher: `MERGE (x:L {m})` reuses any node with label `L`
whose properties extend `m` and creates one otherwise; `CREATE` always
creates but a uniqueness constraint violation fails (and rolls back) the
whole statement; a relationship `CREATE` is unconditional. -/

/-- A scalar property value (the manual facts use strings and integers). -/
inductive PVal
  | s (v : String)
  | i (v : Int)
deriving DecidableEq

abbrev Props := List (String × PVal)

structure GNode where
  id : Nat
  label : String
  props : Props
deriving DecidableEq

structure GRel where
  src : Nat
  typ : String
  dst : Nat
deriving DecidableEq

/-- A uniqueness constraint or index: its name, its label and the property
key it covers. -/
abbrev SchemaDef := String × String × String

structure Graph where
  nodes : List GNode
  rels : List GRel
  nextId : Nat
  constraints : List SchemaDef
  indexes : List SchemaDef
deriving DecidableEq

def emptyGraph : Graph := ⟨[], [], 0, [], []⟩

def getProp (p : Props) (k : String) : Option PVal :=
  (p.find? (fun kv => kv.1 = k)).map (·.2)

/-- Does node `n` match the pattern `(:label {props})`? -/
def nodeMatches (n : GNode) (label : String) (props : Props) : Bool :=
  n.label = label && props.all (fun kv => getProp n.props kv.1 = some kv.2)

/-- Would creating a node with `label`/`props` violate a property-uniqueness
constraint, i.e. does a node with the same label and the same value of a
constrained key already exist? -/
def violatesConstraint (g : Graph) (label : String) (props : Props) : Bool :=
  g.constraints.any (fun c =>
    c.2.1 = label &&
    match getProp props c.2.2 with
    | some v => g.nodes.any (fun n =>
        n.label = label && getProp n.props c.2.2 = some v)
    | none => false)

/-- `CREATE (x:label {props})`: unconditional creation, failing the statement
on a uniqueness-constraint violation. -/
def createNode (g : Graph) (label : String) (props : Props) :
    Except String Graph :=
  if violatesConstraint g label props then
    .error "ConstraintValidationFailed"
  else
    .ok { g with nodes := g.nodes ++ [⟨g.nextId, label, props⟩],
                 nextId := g.nextId + 1 }

/-- `MERGE (x:label {props})`: reuse a matching node if one exists, create
otherwise. -/
def mergeNode (g : Graph) (label : String) (props : Props) :
    Except String Graph :=
  if g.nodes.any (fun n => nodeMatches n label props) then .ok g
  else createNode g label props

/-- `MATCH (x:label {props})`: all matching nodes. -/
def matchNodes (g : Graph) (label : String) (props : Props) : List GNode :=
  g.nodes.filter (fun n => nodeMatches n label props)

/-- `CREATE (a)-[:typ]->(b)`: relationships have no uniqueness constraints,
so creation is unconditional. -/
def createRel (g : Graph) (src : GNode) (typ : String) (dst : GNode) : Graph :=
  { g with rels := g.rels ++ [⟨src.id, typ, dst.id⟩] }

/-! ## Schema setup (`create_constraints_and_indexes`, src/main.py:80-108).

Five `CREATE CONSTRAINT ... IF NOT EXISTS` statements then three
`CREATE INDEX ... IF NOT EXISTS` statements, each wrapped in its own
`try`/`except`.  `IF NOT EXISTS` makes a statement a no-op when a
constraint/index of that name already exists.  A statement may still fail
for external reasons (e.g. an equivalent constraint exists under another
name); `fail i` injects such a failure on the `i`-th statement (0-4 the
constraints, 5-7 the indexes), which the code catches, leaving the store
unchanged by that statement. -/

def constraintStmts : List SchemaDef :=
  [("personagem_nome", "Personagem", "nome"),
   ("filme_titulo", "Filme", "título"),
   ("planeta_nome", "Planeta", "nome"),
   ("nave_nome", "Nave", "nome"),
   ("faccao_nome", "Facção", "nome")]

def indexStmts : List SchemaDef :=
  [("personagem_nome_idx", "Personagem", "nome"),
   ("filme_ano_idx", "Filme", "ano"),
   ("planeta_clima_idx", "Planeta", "clima")]

/-- `CREATE ... IF NOT EXISTS`: add the definition unless one of the same
name is already present. -/
def addIfAbsent (l : List SchemaDef) (c : SchemaDef) : List SchemaDef :=
  if l.any (fun d => d.1 = c.1) then l else l ++ [c]

/-- Run a list of schema statements starting at failure index `k`; a failed
statement is caught and skipped, the rest are still attempted. -/
def runSchemaFrom (fail : Nat → Bool) : Nat → List SchemaDef → List SchemaDef →
    List SchemaDef
  | _, acc, [] => acc
  | k, acc, c :: rest =>
      runSchemaFrom fail (k + 1) (if fail k then acc else addIfAbsent acc c) rest

def create_constraints_and_indexes (fail : Nat → Bool) (g : Graph) : Graph :=
  { g with constraints := runSchemaFrom fail 0 g.constraints constraintStmts,
           indexes := runSchemaFrom fail 5 g.indexes indexStmts }

/-! ## Manual knowledge (`add_manual_knowledge`, src/main.py:163-204).

Four Cypher statements, each run in its own `try`/`except` (an error is
logged and the loop moves on).  Statement 1 uses `CREATE` for the three
films; statements 2 and 3 use `MERGE` for characters and planets;
statement 4 `MATCH`es Luke, Leia and Vader and `CREATE`s three family
relationships per row of the Cartesian product of the matches.  A statement
is a transaction: if one of its clauses fails, the whole statement rolls
back. -/

def manualStmt1 (g : Graph) : Except String Graph := do
  let g ← createNode g "Filme"
    [("título", .s "Episódio IV: Uma Nova Esperança"), ("ano", .i 1977),
     ("diretor", .s "George Lucas")]
  let g ← createNode g "Filme"
    [("título", .s "Episódio V: O Império Contra-Ataca"), ("ano", .i 1980),
     ("diretor", .s "Irvin Kershner")]
  let g ← createNode g "Filme"
    [("título", .s "Episódio VI: O Retorno do Jedi"), ("ano", .i 1983),
     ("diretor", .s "Richard Marquand")]
  pure g

def manualStmt2 (g : Graph) : Except String Graph := do
  let g ← mergeNode g "Personagem"
    [("nome", .s "Luke Skywalker"), ("espécie", .s "Humano"),
     ("planeta_natal", .s "Tatooine"), ("lado_da_força", .s "Jedi")]
  let g ← mergeNode g "Personagem"
    [("nome", .s "Leia Organa"), ("espécie", .s "Humano"),
     ("planeta_natal", .s "Alderaan"), ("afiliação", .s "Rebel Alliance")]
  let g ← mergeNode g "Personagem"
    [("nome", .s "Han Solo"), ("espécie", .s "Humano"),
     ("planeta_natal", .s "Corellia"), ("afiliação", .s "Rebel Alliance")]
  let g ← mergeNode g "Personagem"
    [("nome", .s "Darth Vader"), ("espécie", .s "Humano"),
     ("planeta_natal", .s "Tatooine"), ("lado_da_força", .s "Sith")]
  pure g

def manualStmt3 (g : Graph) : Except String Graph := do
  let g ← mergeNode g "Planeta"
    [("nome", .s "Tatooine"), ("clima", .s "Árido"), ("tipo", .s "Deserto"),
     ("população", .s "Baixa")]
  let g ← mergeNode g "Planeta"
    [("nome", .s "Alderaan"), ("clima", .s "Temperado"),
     ("tipo", .s "Montanhoso"), ("status", .s "Destruído")]
  let g ← mergeNode g "Planeta"
    [("nome", .s "Hoth"), ("clima", .s "Gelado"), ("tipo", .s "Tundra"),
     ("população", .s "Baixa")]
  pure g

/-- Statement 4: per row of the product of the three `MATCH`es, `CREATE`
`(vader)-[:FILHO_DE]->(luke)`, `(vader)-[:FILHO_DE]->(leia)` and
`(luke)-[:IRMÃO_DE]->(leia)`.  With no matching row the statement succeeds
doing nothing. -/
def manualStmt4 (g : Graph) : Except String Graph :=
  let lukes := matchNodes g "Personagem" [("nome", .s "Luke Skywalker")]
  let leias := matchNodes g "Personagem" [("nome", .s "Leia Organa")]
  let vaders := matchNodes g "Personagem" [("nome", .s "Darth Vader")]
  .ok <| lukes.foldl (fun g luke =>
    leias.foldl (fun g leia =>
      vaders.foldl (fun g vader =>
        createRel (createRel (createRel g vader "FILHO_DE" luke)
          vader "FILHO_DE" leia) luke "IRMÃO_DE" leia) g) g) g

/-- Run one statement inside `try`/`except`: a failed statement rolls back
and the previous graph is kept. -/
def applyCaught (g : Graph) (stmt : Graph → Except String Graph) : Graph :=
  match stmt g with
  | .ok g' => g'
  | .error _ => g

def manual_data : List (Graph → Except String Graph) :=
  [manualStmt1, manualStmt2, manualStmt3, manualStmt4]

def add_manual_knowledge (g : Graph) : Graph :=
  manual_data.foldl applyCaught g

/-! ## Statistics (`validate_graph`, src/main.py:206-234, and
`get_graph_stats`, src/qa.py:124-144).

Three fixed read-only queries (`MATCH ... RETURN` with no write clause):

* `MATCH (n) RETURN labels(n)[0] as label, count(n) as count ORDER BY count
  DESC` — group nodes by label; with no nodes there are no groups, so zero
  rows and an empty mapping.
* the same for relationship types.
* `MATCH (n) OPTIONAL MATCH ()-[r]->() RETURN count(DISTINCT n) as
  total_nodes, count(r) as total_relationships` — the `OPTIONAL MATCH` of an
  independent pattern pairs every node row with every relationship (or with
  one null row when there are none); a `RETURN` of aggregates only always
  yields exactly one row, `(0, 0)` over zero input rows, so the code's `[0]`
  indexing is safe on an empty graph. -/

/-- Insert into a list sorted by descending count (`ORDER BY count DESC`). -/
def insertDesc (x : String × Nat) : List (String × Nat) → List (String × Nat)
  | [] => [x]
  | y :: ys => if y.2 ≤ x.2 then x :: y :: ys else y :: insertDesc x ys

def sortDesc : List (String × Nat) → List (String × Nat)
  | [] => []
  | x :: xs => insertDesc x (sortDesc xs)

/-- Group a key sequence into (key, count) rows, one per distinct key. -/
def groupCount (keys : List String) : List (String × Nat) :=
  keys.dedup.map (fun k => (k, keys.count k))

/-- The node-by-label query: `(graph after the query, result rows)` — a
`MATCH ... RETURN` reads and does not mutate. -/
def runNodeCountsQuery (g : Graph) : Graph × List (String × Nat) :=
  (g, sortDesc (groupCount (g.nodes.map (·.label))))

/-- The relationship-by-type query, likewise a pure read. -/
def runRelCountsQuery (g : Graph) : Graph × List (String × Nat) :=
  (g, sortDesc (groupCount (g.rels.map (·.typ))))

/-- The totals query, likewise a pure read; returns its single result row. -/
def runTotalsQuery (g : Graph) : Graph × (Nat × Nat) :=
  let rows := (g.nodes.map (fun n =>
    if g.rels.isEmpty then [(n, (none : Option GRel))]
    else g.rels.map (fun r => (n, some r)))).flatten
  (g, ((rows.map (fun p => p.1.id)).dedup.length,
       (rows.filter (fun p => p.2.isSome)).length))

/-- The `stats` dict built by `validate_graph`: the two grouped mappings
(assoc lists with one entry per distinct key) and the totals row. -/
structure GraphStats where
  node_counts : List (String × Nat)
  relationship_counts : List (String × Nat)
  totals : Nat × Nat
deriving DecidableEq

/-- `validate_graph`: issue the three queries in order, threading the graph
state through them, and assemble the stats dict. -/
def validate_graph (g : Graph) : Graph × GraphStats :=
  let r1 := runNodeCountsQuery g
  let r2 := runRelCountsQuery r1.1
  let r3 := runTotalsQuery r2.1
  (r3.1, ⟨r1.2, r2.2, r3.2⟩)

/-- The `stats` dict built by `get_graph_stats` (src/qa.py): the two grouped
mappings only. -/
structure QAStats where
  nodes : List (String × Nat)
  relationships : List (String × Nat)
deriving DecidableEq

def get_graph_stats (g : Graph) : Graph × QAStats :=
  let r1 := runNodeCountsQuery g
  let r2 := runRelCountsQuery r1.1
  (r2.1, ⟨r1.2, r2.2⟩)

/-! ## Document chunking (`load_and_process_documents`, src/main.py:110-130).

The code configures `CharacterTextSplitter(chunk_size=1000,
chunk_overlap=150, separator="\n\n")` and calls `split_documents`, which
applies `split_text` to each page's text.  `split_text` is third-party but
fixed and simple; we embed it faithfully: the text is split on the literal
separator (`re.split` with the escaped separator, empty pieces discarded),
and the pieces are greedily re-merged (`_merge_splits`): a piece that would
overflow the current chunk flushes it (joined with the separator and
stripped of surrounding whitespace) and retains up to `chunk_overlap`
trailing characters' worth of pieces as overlap.  A Python string is a
sequence of code points, embedded as `List Char`. -/

abbrev PyStr := List Char

/-- `re.split` with a literal separator: scan left to right, cutting at each
occurrence of `sep`.  Every step consumes at least one character, so a fuel
of the text's length suffices and the out-of-fuel branch is unreachable. -/
def splitOnSepAux (sep : PyStr) : Nat → PyStr → PyStr → List PyStr
  | _, acc, [] => [acc.reverse]
  | 0, acc, l => [acc.reverse ++ l]
  | fuel + 1, acc, c :: cs =>
      if sep.isPrefixOf (c :: cs) ∧ sep ≠ [] then
        acc.reverse :: splitOnSepAux sep fuel [] (cs.drop (sep.length - 1))
      else
        splitOnSepAux sep fuel (c :: acc) cs

def splitOnSep (sep text : PyStr) : List PyStr :=
  splitOnSepAux sep text.length [] text

/-- Python `sep.join(docs)`. -/
def pyJoin (sep : PyStr) (docs : List PyStr) : PyStr :=
  (docs.intersperse sep).flatten

/-- Python `str.strip()`: drop leading and trailing whitespace. -/
def pyStrip (s : PyStr) : PyStr :=
  (((s.dropWhile Char.isWhitespace).reverse).dropWhile Char.isWhitespace).reverse

/-- `TextSplitter._join_docs`: join with the separator, strip, and drop the
chunk when nothing is left. -/
def joinDocs (sep : PyStr) (docs : List PyStr) : Option PyStr :=
  let text := pyStrip (pyJoin sep docs)
  if text = [] then none else some text

/-- The `while` loop in `TextSplitter._merge_splits` that pops pieces off
the front of `current_doc` until at most `chunk_overlap` characters remain
and the incoming piece fits (or the buffer is empty). -/
def popLoop (S ov sepn dlen : Nat) : List PyStr → Nat → List PyStr × Nat
  | [], total => ([], total)
  | c :: cs, total =>
      if ov < total ∨ (S < total + dlen + sepn ∧ 0 < total) then
        popLoop S ov sepn dlen cs
          (total - (c.length + if cs.isEmpty then 0 else sepn))
      else (c :: cs, total)

/-- The loop state of `_merge_splits`: finished chunks, the pieces of the
chunk being built, and `total`, the running joined length of those pieces. -/
structure MergeState where
  docs : List PyStr
  current : List PyStr
  total : Nat

/-- The flush phase of one `_merge_splits` iteration: if the incoming piece
(of length `dlen`) would overflow `chunk_size` and the buffer is nonempty,
emit the joined buffer as a chunk and pop pieces to leave at most
`chunk_overlap` characters of overlap. -/
def flushStep (S ov : Nat) (sep : PyStr) (st : MergeState) (dlen : Nat) :
    MergeState :=
  if S < st.total + dlen + (if st.current.isEmpty then 0 else sep.length) then
    if st.current.isEmpty then st
    else
      { docs :=
          match joinDocs sep st.current with
          | some doc => st.docs ++ [doc]
          | none => st.docs
        current := (popLoop S ov sep.length dlen st.current st.total).1
        total := (popLoop S ov sep.length dlen st.current st.total).2 }
  else st

/-- One iteration of the `for d in splits` loop of `_merge_splits`: flush if
needed, then append the piece, counting a separator when it joins a
nonempty buffer. -/
def mergeStep (S ov : Nat) (sep : PyStr) (st : MergeState) (d : PyStr) :
    MergeState :=
  let st1 := flushStep S ov sep st d.length
  { docs := st1.docs
    current := st1.current ++ [d]
    total := st1.total + d.length
      + (if st1.current.isEmpty then 0 else sep.length) }

/-- `TextSplitter._merge_splits`: fold the pieces through `mergeStep` and
flush the final buffer. -/
def mergeSplits (S ov : Nat) (sep : PyStr) (splits : List PyStr) :
    List PyStr :=
  let st := splits.foldl (mergeStep S ov sep) ⟨[], [], 0⟩
  match joinDocs sep st.current with
  | some doc => st.docs ++ [doc]
  | none => st.docs

/-- `chunk_size=1000` (src/main.py:123). -/
def chunk_size : Nat := 1000

/-- `chunk_overlap=150` (src/main.py:124). -/
def chunk_overlap : Nat := 150

/-- `separator="\n\n"` (src/main.py:125). -/
def paragraph_sep : PyStr := ['\n', '\n']

/-- `CharacterTextSplitter.split_text` as configured in
`load_and_process_documents`: split on the paragraph separator, discard
empty pieces, and re-merge. -/
def split_text (text : PyStr) : List PyStr :=
  mergeSplits chunk_size chunk_overlap paragraph_sep
    ((splitOnSep paragraph_sep text).filter (fun s => s ≠ []))

/-! ## Concrete scenarios used by witnesses and counterexamples. -/

/-- An environment with only the LLM key set. -/
def demoEnvNoUri : Env := fun v =>
  if v = "OPENAI_API_KEY" then some "sk-test" else none

/-- An environment with all four required variables set and non-empty. -/
def demoEnvFull : Env := fun v =>
  if v ∈ required_vars then some "value" else none

/-- A QA oracle whose Cypher generation always fails. -/
def demoFailOracle : QAOracles :=
  ⟨fun _ => .error "boom", fun _ => .ok [], fun _ _ => .ok "ok", 7, 3⟩

/-- The graph at the point `add_manual_knowledge` runs in a fresh pipeline:
empty store, schema statements applied (src/main.py:236-255 runs
`create_constraints_and_indexes` before ingestion and manual facts). -/
def pipelineInitGraph : Graph :=
  create_constraints_and_indexes (fun _ => false) emptyGraph

/-- A single paragraph (no separator occurrence) of 1001 characters. -/
def oversizedParagraph : PyStr := List.replicate 1001 'a'

/-- A small two-paragraph document. -/
def demoDocText : PyStr := ['a', 'b', '\n', '\n', 'c', 'd']

/-! # Theorems -/

/-! ## C6: environment setup -/

theorem checkVars_ok_iff (env : Env) (l : List String) :
    checkVars env l = .ok () ↔ ∀ v ∈ l, envMissing env v = false := by
  induction l with
  | nil => simp [checkVars]
  | cons v vs ih => cases h : envMissing env v <;> simp [checkVars, h, ih]

theorem checkVars_firstMissing (env : Env) (l : List String) (v : String)
    (h : firstMissing env l = some v) :
    checkVars env l = .error ("Variável de ambiente " ++ v ++ " não encontrada") := by
  induction l with
  | nil => simp [firstMissing] at h
  | cons w ws ih =>
      cases hw : envMissing env w <;> simp [firstMissing, hw] at h
      · exact (by simp [checkVars, hw, ih h])
      · subst h; simp [checkVars, hw]

/-- C6: `setup_environment` checks each of the four required keys for being
present and non-empty; it succeeds exactly when all four are, and on the
first missing-or-empty key it fails with a configuration error naming that
key. -/
theorem setup_environment_spec (env : Env) :
    (setup_environment env = .ok () ↔
      ∀ v ∈ required_vars, envMissing env v = false)
    ∧ (∀ v, firstMissing env required_vars = some v →
        setup_environment env =
          .error ("Variável de ambiente " ++ v ++ " não encontrada")) :=
  ⟨checkVars_ok_iff env required_vars,
   fun v h => checkVars_firstMissing env required_vars v h⟩

/-- Witness for C6: with only the LLM key set, setup fails naming
`NEO4J_URI` (the first missing key); with all four set it succeeds. -/
theorem setup_environment_spec_witness :
    setup_environment demoEnvNoUri =
      .error "Variável de ambiente NEO4J_URI não encontrada"
    ∧ setup_environment demoEnvFull = .ok () :=
  ⟨(setup_environment_spec demoEnvNoUri).2 "NEO4J_URI" (by decide),
   (setup_environment_spec demoEnvFull).1.mpr (by decide)⟩

/-! ## C2: `ask_with_context` degrades failures -/

/-- C2: a failure in query generation, query execution or answer synthesis
is caught by `ask_with_context`, which returns the degraded result — the
error-describing answer string, empty Cypher query, empty rows, zero tokens
and zero cost — instead of propagating the failure (the embedding is a total
function, so no exception can escape). -/
theorem ask_with_context_degrades (o : QAOracles) (q e : String)
    (h : o.genCypher q = .error e
      ∨ (∃ c, o.genCypher q = .ok c ∧ o.runQuery c = .error e)
      ∨ (∃ c rows, o.genCypher q = .ok c ∧ o.runQuery c = .ok rows ∧
          o.synthesize q (rows.take qa_top_k) = .error e)) :
    ask_with_context o q =
      { question := q, answer := "Erro ao processar pergunta: " ++ e,
        cypher_query := "", raw_results := [], tokens_used := 0, cost := 0 } := by
  have hrun : chainInvoke o qa_top_k q = .error e := by
    rcases h with h1 | ⟨c, h1, h2⟩ | ⟨c, rows, h1, h2, h3⟩
    · simp [chainInvoke, h1]
    · simp [chainInvoke, h1, h2]
    · simp [chainInvoke, h1, h2, h3]
  simp [ask_with_context, hrun]

/-- Witness for C2: an oracle whose generation step fails yields exactly the
degraded result. -/
theorem ask_with_context_degrades_witness :
    ask_with_context demoFailOracle "Quem é Luke?" =
      { question := "Quem é Luke?",
        answer := "Erro ao processar pergunta: boom",
        cypher_query := "", raw_results := [], tokens_used := 0, cost := 0 } :=
  ask_with_context_degrades demoFailOracle "Quem é Luke?" "boom" (Or.inl rfl)

/-! ## C7: top-K cap on raw results -/

/-- C7: the chain retrieves at most `top_k` rows and `setup_qa_chain` fixes
`top_k` to 10, so `raw_results` never holds more than 10 rows, whatever the
underlying query would match. -/
theorem ask_raw_results_le_top_k (o : QAOracles) (q : String) :
    (ask_with_context o q).raw_results.length ≤ qa_top_k ∧ qa_top_k = 10 := by
  refine ⟨?_, rfl⟩
  unfold ask_with_context
  cases hrun : chainInvoke o qa_top_k q with
  | error e => simp
  | ok resp =>
      unfold chainInvoke at hrun
      cases h1 : o.genCypher q with
      | error e => simp [h1] at hrun
      | ok c =>
          simp only [h1] at hrun
          cases h2 : o.runQuery c with
          | error e => simp [h2] at hrun
          | ok rows =>
              simp only [h2] at hrun
              cases h3 : o.synthesize q (rows.take qa_top_k) with
              | error e => simp [h3] at hrun
              | ok ans =>
                  simp only [h3, Except.ok.injEq] at hrun
                  subst hrun
                  simp [extractSteps]

/-! ## C10: `ask_simple` returns the answer field -/

/-- C10: `ask_simple q` is exactly the `answer` field of
`ask_with_context q`, and in the failure case it is therefore the
error-describing string rather than a propagated exception. -/
theorem ask_simple_eq_answer (o : QAOracles) (q : String) :
    ask_simple o q = (ask_with_context o q).answer
    ∧ (∀ e, chainInvoke o qa_top_k q = .error e →
        ask_simple o q = "Erro ao processar pergunta: " ++ e) :=
  ⟨rfl, fun e h => by simp [ask_simple, ask_with_context, h]⟩

/-- Witness for C10: on a failing oracle `ask_simple` returns the
error-describing answer string. -/
theorem ask_simple_eq_answer_witness :
    ask_simple demoFailOracle "Quem é Leia?" =
      "Erro ao processar pergunta: boom" :=
  (ask_simple_eq_answer demoFailOracle "Quem é Leia?").2 "boom" rfl

/-! ## C1: per-chunk failure isolation in `process_chunks_to_graph` -/

/-- Counterexample to C1 as stated: one chunk whose extraction succeeds
(one entity) but whose graph write fails.  The claim says a chunk whose
graph write failed contributes nothing to the totals, so the returned total
should be 0; the code increments the counters *before*
`add_graph_documents` (src/main.py:144-150), so it returns 1. -/
theorem process_chunks_write_failure_counts :
    process_chunks_to_graph demoTransformer demoAddFail 0 ["c0"] ≠ 0 := by
  decide

/-- C1 amended: the loop catches every per-chunk failure and still processes
all remaining chunks; the totals equal the sum over all chunks of the
extracted counts of the chunks whose *extraction* succeeded — an extraction
failure contributes nothing, but a chunk whose extraction succeeded and
whose graph write then failed still contributes its extracted counts, since
counting precedes the write.  In particular the totals are independent of
the write oracle. -/
theorem process_chunks_totals (γ : Type)
    (t : String → Except String (List GraphDoc))
    (a : γ → List GraphDoc → Except String γ) (g0 : γ) (chunks : List String) :
    (ingestLoop t a g0 chunks).total_entities
        = (chunks.map (fun c => (chunkContribution t c).1)).sum
    ∧ (ingestLoop t a g0 chunks).total_relationships
        = (chunks.map (fun c => (chunkContribution t c).2)).sum
    ∧ process_chunks_to_graph t a g0 chunks
        = (chunks.map (fun c =>
            (chunkContribution t c).1 + (chunkContribution t c).2)).sum := by
  have key : ∀ (cs : List String) (st : IngestState γ),
      (cs.foldl (processOneChunk t a) st).total_entities
          = st.total_entities + (cs.map (fun c => (chunkContribution t c).1)).sum
      ∧ (cs.foldl (processOneChunk t a) st).total_relationships
          = st.total_relationships
            + (cs.map (fun c => (chunkContribution t c).2)).sum := by
    intro cs
    induction cs with
    | nil => intro st; simp
    | cons c rest ih =>
        intro st
        have hstep :
            (processOneChunk t a st c).total_entities
                = st.total_entities + (chunkContribution t c).1
            ∧ (processOneChunk t a st c).total_relationships
                = st.total_relationships + (chunkContribution t c).2 := by
          unfold processOneChunk chunkContribution
          cases ht : t c with
          | error e => simp
          | ok gdocs => cases ha : a st.graph gdocs <;> simp [ha]
        rcases ih (processOneChunk t a st c) with ⟨ihe, ihr⟩
        constructor
        · simp [List.foldl_cons, ihe, hstep.1, Nat.add_assoc]
        · simp [List.foldl_cons, ihr, hstep.2, Nat.add_assoc]
  rcases key chunks ⟨g0, 0, 0⟩ with ⟨he, hr⟩
  have hsum : (chunks.map (fun c =>
      (chunkContribution t c).1 + (chunkContribution t c).2)).sum
      = (chunks.map (fun c => (chunkContribution t c).1)).sum
        + (chunks.map (fun c => (chunkContribution t c).2)).sum := by
    induction chunks with
    | nil => simp
    | cons c rest ih => simp [ih]; omega
  refine ⟨by simpa [ingestLoop] using he, by simpa [ingestLoop] using hr, ?_⟩
  simp [process_chunks_to_graph, ingestLoop] at *
  omega

/-! ## C4: statistics on the empty graph -/

/-- C4: on a graph with no nodes and no relationships the statistics are
total_nodes = 0 and total_relationships = 0 (a defined row — the
aggregate-only `RETURN` yields exactly one row even over zero matches) and
both per-label and per-type mappings are empty. -/
theorem validate_graph_empty (g : Graph) (h1 : g.nodes = [])
    (h2 : g.rels = []) :
    (validate_graph g).2 =
      { node_counts := [], relationship_counts := [], totals := (0, 0) } := by
  simp [validate_graph, runNodeCountsQuery, runRelCountsQuery, runTotalsQuery,
    groupCount, sortDesc, h1, h2]

/-- Witness for C4: the literal empty graph. -/
theorem validate_graph_empty_witness :
    (validate_graph emptyGraph).2 =
      { node_counts := [], relationship_counts := [], totals := (0, 0) } :=
  validate_graph_empty emptyGraph rfl rfl

/-! ## C9: statistics are read-only -/

/-- C9: the statistics computations issue only `MATCH ... RETURN` reads, so
both `validate_graph` and `get_graph_stats` leave the graph — nodes,
relationships, constraints and indexes — unchanged, on every graph state
including the empty one (both are total functions). -/
theorem stats_read_only (g : Graph) :
    (validate_graph g).1 = g ∧ (get_graph_stats g).1 = g :=
  ⟨rfl, rfl⟩

/-! ## C5: schema setup is idempotent and per-statement independent -/

theorem mem_names_addIfAbsent (l : List SchemaDef) (c : SchemaDef) (a : String) :
    a ∈ (addIfAbsent l c).map (·.1) ↔ a ∈ l.map (·.1) ∨ a = c.1 := by
  unfold addIfAbsent
  cases h : l.any (fun d => d.1 = c.1) with
  | false => simp [h]
  | true =>
      simp only [h, if_true]
      simp only [List.any_eq_true, decide_eq_true_eq] at h
      rcases h with ⟨d, hd, hdc⟩
      constructor
      · exact Or.inl
      · rintro (ha | rfl)
        · exact ha
        · exact List.mem_map.mpr ⟨d, hd, hdc⟩

theorem addIfAbsent_self_mem (l : List SchemaDef) (c : SchemaDef) :
    c.1 ∈ (addIfAbsent l c).map (·.1) :=
  (mem_names_addIfAbsent l c c.1).mpr (Or.inr rfl)

theorem addIfAbsent_noop (l : List SchemaDef) (c : SchemaDef)
    (h : c.1 ∈ l.map (·.1)) : addIfAbsent l c = l := by
  have h' : l.any (fun d => d.1 = c.1) = true := by
    simp only [List.any_eq_true, decide_eq_true_eq]
    rcases List.mem_map.mp h with ⟨d, hd, hdc⟩
    exact ⟨d, hd, hdc⟩
  simp [addIfAbsent, h']

theorem mem_names_runSchemaFrom (fail : Nat → Bool) (stmts : List SchemaDef) :
    ∀ (k : Nat) (acc : List SchemaDef) (a : String),
    a ∈ (runSchemaFrom fail k acc stmts).map (·.1)
      ↔ a ∈ acc.map (·.1)
        ∨ ∃ i c, stmts.get? i = some c ∧ c.1 = a ∧ fail (k + i) = false := by
  induction stmts with
  | nil => intro k acc a; simp [runSchemaFrom]
  | cons c rest ih =>
      intro k acc a
      unfold runSchemaFrom
      rw [ih (k + 1) _ a]
      cases hf : fail k with
      | true =>
          simp only [if_true]
          constructor
          · rintro (ha | ⟨i, c', hget, hc, hfa⟩)
            · exact Or.inl ha
            · refine Or.inr ⟨i + 1, c', by simpa using hget, hc, ?_⟩
              rw [show k + (i + 1) = k + 1 + i by omega]; exact hfa
          · rintro (ha | ⟨i, c', hget, hc, hfa⟩)
            · exact Or.inl ha
            · cases i with
              | zero =>
                  simp only [List.get?_cons_zero, Option.some.injEq] at hget
                  rw [Nat.add_zero] at hfa
                  rw [hf] at hfa
                  cases hfa
              | succ j =>
                  refine Or.inr ⟨j, c', by simpa using hget, hc, ?_⟩
                  rw [show k + 1 + j = k + (j + 1) by omega]; exact hfa
      | false =>
          simp only [if_false, Bool.false_eq_true]
          rw [mem_names_addIfAbsent]
          constructor
          · rintro ((ha | rfl) | ⟨i, c', hget, hc, hfa⟩)
            · exact Or.inl ha
            · exact Or.inr ⟨0, c, rfl, rfl, by simpa using hf⟩
            · refine Or.inr ⟨i + 1, c', by simpa using hget, hc, ?_⟩
              rw [show k + (i + 1) = k + 1 + i by omega]; exact hfa
          · rintro (ha | ⟨i, c', hget, hc, hfa⟩)
            · exact Or.inl (Or.inl ha)
            · cases i with
              | zero =>
                  simp only [List.get?_cons_zero, Option.some.injEq] at hget
                  subst hget
                  exact Or.inl (Or.inr hc.symm)
              | succ j =>
                  refine Or.inr ⟨j, c', by simpa using hget, hc, ?_⟩
                  rw [show k + 1 + j = k + (j + 1) by omega]; exact hfa

theorem runSchemaFrom_mono (fail : Nat → Bool) (stmts : List SchemaDef)
    (k : Nat) (acc : List SchemaDef) (a : String) (h : a ∈ acc.map (·.1)) :
    a ∈ (runSchemaFrom fail k acc stmts).map (·.1) :=
  (mem_names_runSchemaFrom fail stmts k acc a).mpr (Or.inl h)

theorem runSchemaFrom_idem (fail : Nat → Bool) (stmts : List SchemaDef) :
    ∀ (k : Nat) (acc : List SchemaDef),
    runSchemaFrom fail k (runSchemaFrom fail k acc stmts) stmts
      = runSchemaFrom fail k acc stmts := by
  induction stmts with
  | nil => intro k acc; simp [runSchemaFrom]
  | cons c rest ih =>
      intro k acc
      simp only [runSchemaFrom]
      by_cases hf : fail k = true
      · simp only [hf, if_true]
        exact ih (k + 1) acc
      · simp [hf]
        have hmem : c.1 ∈ (runSchemaFrom fail (k + 1)
            (addIfAbsent acc c) rest).map (·.1) :=
          runSchemaFrom_mono fail rest (k + 1) _ _ (addIfAbsent_self_mem acc c)
        rw [addIfAbsent_noop _ _ hmem]
        exact ih (k + 1) (addIfAbsent acc c)

/-- C5: each schema statement is create-if-absent and sits in its own
`try`/`except`, so (i) running the whole operation twice — under the same
injected per-statement failures — leaves exactly the constraint/index set
of one run, with no duplicate-error abort, and (ii) whatever the other
statements do, the `i`-th statement that does not itself fail gets applied:
its constraint/index name is present afterwards. -/
theorem create_constraints_and_indexes_spec (fail : Nat → Bool) (g : Graph) :
    (create_constraints_and_indexes fail (create_constraints_and_indexes fail g)
        = create_constraints_and_indexes fail g)
    ∧ (∀ i c, constraintStmts.get? i = some c → fail i = false →
        c.1 ∈ (create_constraints_and_indexes fail g).constraints.map (·.1))
    ∧ (∀ i c, indexStmts.get? i = some c → fail (5 + i) = false →
        c.1 ∈ (create_constraints_and_indexes fail g).indexes.map (·.1)) := by
  refine ⟨?_, ?_, ?_⟩
  · simp [create_constraints_and_indexes, runSchemaFrom_idem]
  · intro i c hget hfail
    exact (mem_names_runSchemaFrom fail constraintStmts 0 g.constraints
      c.1).mpr (Or.inr ⟨i, c, hget, rfl, by simpa using hfail⟩)
  · intro i c hget hfail
    exact (mem_names_runSchemaFrom fail indexStmts 5 g.indexes
      c.1).mpr (Or.inr ⟨i, c, hget, rfl, hfail⟩)

/-- Witness for C5: inject a failure on statement 1 (the `Filme` title
constraint); statement 2 (the `Planeta` name constraint) is still applied. -/
theorem create_constraints_and_indexes_spec_witness :
    "planeta_nome" ∈ ((create_constraints_and_indexes (fun i => decide (i = 1))
        emptyGraph).constraints.map (·.1)) :=
  (create_constraints_and_indexes_spec (fun i => decide (i = 1))
      emptyGraph).2.1 2 ("planeta_nome", "Planeta", "nome") rfl rfl

/-! ## C3: manual facts are not uniformly merge-by-key -/

/-- Counterexample to C3 as stated: in a fresh pipeline graph (schema
applied, store empty), applying the four manual-fact statements twice does
not preserve the relationship counts: the family relationships are created
with `CREATE`, not merged, so the second application duplicates them
(3 relationships become 6). -/
theorem add_manual_knowledge_twice_counterexample :
    (add_manual_knowledge (add_manual_knowledge pipelineInitGraph)).rels.length
      ≠ (add_manual_knowledge pipelineInitGraph).rels.length := by
  decide

/-- C3 amended: only the character and planet statements use merge-by-key
(`MERGE`, proved in general below: a node just merged is reused by an
identical re-merge).  The film statement uses `CREATE`: re-applying it
violates the `Filme` title uniqueness constraint, fails as a whole and is
caught, so node counts survive re-application (10 both times) for a
different reason than merging.  The family-relationship statement uses
`CREATE` with no constraint, so re-application duplicates relationships:
3 after one application, 6 after two. -/
theorem add_manual_knowledge_amended :
    ((add_manual_knowledge pipelineInitGraph).nodes.length = 10
      ∧ (add_manual_knowledge
          (add_manual_knowledge pipelineInitGraph)).nodes.length = 10
      ∧ (add_manual_knowledge pipelineInitGraph).rels.length = 3
      ∧ (add_manual_knowledge
          (add_manual_knowledge pipelineInitGraph)).rels.length = 6)
    ∧ (∀ (g g' : Graph) (label : String) (props : Props),
        (∀ kv ∈ props, getProp props kv.1 = some kv.2) →
        mergeNode g label props = .ok g' →
        mergeNode g' label props = .ok g') := by
  constructor
  · exact ⟨by decide, by decide, by decide, by decide⟩
  · intro g g' label props hp h
    unfold mergeNode at h ⊢
    by_cases hex : g.nodes.any (fun n => nodeMatches n label props) = true
    · rw [if_pos hex] at h
      cases h
      rw [if_pos hex]
    · rw [if_neg hex] at h
      unfold createNode at h
      by_cases hviol : violatesConstraint g label props = true
      · rw [if_pos hviol] at h; cases h
      · rw [if_neg hviol] at h
        cases h
        have hnew : nodeMatches ⟨g.nextId, label, props⟩ label props = true := by
          simp only [nodeMatches, Bool.and_eq_true, decide_eq_true_eq,
            List.all_eq_true]
          exact ⟨trivial, hp⟩
        rw [if_pos (by simp [List.any_append, hnew])]

/-- Witness for C3's amended merge-reuse part: merging the Hoth planet into
the empty graph and merging it again reuses the node. -/
theorem add_manual_knowledge_amended_witness :
    mergeNode ⟨[⟨0, "Planeta", [("nome", PVal.s "Hoth")]⟩], [], 1, [], []⟩
        "Planeta" [("nome", PVal.s "Hoth")]
      = .ok ⟨[⟨0, "Planeta", [("nome", PVal.s "Hoth")]⟩], [], 1, [], []⟩ :=
  add_manual_knowledge_amended.2 emptyGraph
    ⟨[⟨0, "Planeta", [("nome", PVal.s "Hoth")]⟩], [], 1, [], []⟩
    "Planeta" [("nome", PVal.s "Hoth")] (by decide) rfl

/-! ## C8: chunker size bound

The `total` variable of `_merge_splits` tracks the length of the buffered
pieces joined with the separator; `weight` names that quantity. -/

/-- Joined length of pieces after the first: each costs a separator plus
its own length. -/
def weightTail (sepn : Nat) : List PyStr → Nat
  | [] => 0
  | c :: cs => sepn + c.length + weightTail sepn cs

/-- Length of the pieces joined with a separator of length `sepn`. -/
def weight (sepn : Nat) : List PyStr → Nat
  | [] => 0
  | c :: cs => c.length + weightTail sepn cs

theorem length_pyJoin (sep : PyStr) (l : List PyStr) :
    (pyJoin sep l).length = weight sep.length l := by
  unfold pyJoin
  induction l with
  | nil => rfl
  | cons c cs ih =>
      cases cs with
      | nil => simp [weight, weightTail, List.intersperse_singleton]
      | cons c' cs' =>
          rw [List.intersperse_cons_cons]
          simp only [List.flatten_cons, List.length_append] at ih ⊢
          simp [weight, weightTail] at ih ⊢
          omega

theorem length_dropWhile_le (p : Char → Bool) (l : List Char) :
    (l.dropWhile p).length ≤ l.length := by
  induction l with
  | nil => simp
  | cons c cs ih =>
      rw [List.dropWhile_cons]
      split
      · exact Nat.le_trans ih (Nat.le_succ _)
      · exact Nat.le_refl _

theorem length_pyStrip_le (s : PyStr) : (pyStrip s).length ≤ s.length := by
  unfold pyStrip
  calc ((((s.dropWhile Char.isWhitespace).reverse).dropWhile
            Char.isWhitespace).reverse).length
      = (((s.dropWhile Char.isWhitespace).reverse).dropWhile
            Char.isWhitespace).length := List.length_reverse _
    _ ≤ ((s.dropWhile Char.isWhitespace).reverse).length :=
          length_dropWhile_le _ _
    _ = (s.dropWhile Char.isWhitespace).length := List.length_reverse _
    _ ≤ s.length := length_dropWhile_le _ _

theorem joinDocs_length_le (sep : PyStr) (l : List PyStr) (doc : PyStr)
    (h : joinDocs sep l = some doc) : doc.length ≤ weight sep.length l := by
  unfold joinDocs at h
  by_cases he : pyStrip (pyJoin sep l) = []
  · simp [he] at h
  · simp only [he, if_neg, if_false] at h
    cases h
    calc (pyStrip (pyJoin sep l)).length
        ≤ (pyJoin sep l).length := length_pyStrip_le _
      _ = weight sep.length l := length_pyJoin sep l

theorem weight_append_singleton (sepn : Nat) (l : List PyStr) (d : PyStr) :
    weight sepn (l ++ [d])
      = weight sepn l + (if l.isEmpty then 0 else sepn) + d.length := by
  cases l with
  | nil => simp [weight, weightTail]
  | cons c cs =>
      simp only [List.cons_append, weight, List.isEmpty_cons, if_false,
        Bool.false_eq_true]
      have : ∀ cs' : List PyStr,
          weightTail sepn (cs' ++ [d]) = weightTail sepn cs' + sepn + d.length := by
        intro cs'
        induction cs' with
        | nil => simp [weightTail]
        | cons x xs ih => simp [weightTail, ih]; omega
      rw [this cs]
      omega

theorem weight_eq_zero (sepn : Nat) (l : List PyStr)
    (hne : ∀ c ∈ l, c ≠ []) (h : weight sepn l = 0) : l = [] := by
  cases l with
  | nil => rfl
  | cons c cs =>
      exfalso
      have hc : c ≠ [] := hne c (List.mem_cons_self c cs)
      have : 0 < c.length := List.length_pos.mpr hc
      simp only [weight] at h
      omega

theorem popLoop_spec (S ov sepn dlen : Nat) (l : List PyStr) :
    (popLoop S ov sepn dlen l (weight sepn l)).2
        = weight sepn (popLoop S ov sepn dlen l (weight sepn l)).1
    ∧ (popLoop S ov sepn dlen l (weight sepn l)).1 <:+ l
    ∧ (popLoop S ov sepn dlen l (weight sepn l)).2 ≤ ov
    ∧ ((popLoop S ov sepn dlen l (weight sepn l)).2 + dlen + sepn ≤ S
        ∨ (popLoop S ov sepn dlen l (weight sepn l)).2 = 0) := by
  induction l with
  | nil => simp [popLoop, weight]
  | cons c cs ih =>
      simp only [popLoop]
      by_cases hcond : ov < weight sepn (c :: cs)
          ∨ (S < weight sepn (c :: cs) + dlen + sepn
              ∧ 0 < weight sepn (c :: cs))
      · rw [if_pos hcond]
        have harg : weight sepn (c :: cs)
            - (c.length + if cs.isEmpty then 0 else sepn) = weight sepn cs := by
          cases cs with
          | nil => simp [weight, weightTail]
          | cons c' cs' => simp [weight, weightTail]; omega
        rw [harg]
        exact ⟨ih.1, ih.2.1.trans (List.suffix_cons c cs), ih.2.2⟩
      · rw [if_neg hcond]
        refine ⟨rfl, List.suffix_refl _, ?_, ?_⟩ <;> omega

/-- The loop invariant of `_merge_splits`: `total` is the joined length of
the buffered pieces, it stays within the size bound, the buffer holds only
nonempty pieces, and every emitted chunk is within the size bound. -/
def MergeInv (S sepn : Nat) (st : MergeState) : Prop :=
  st.total = weight sepn st.current
  ∧ st.total ≤ S
  ∧ (∀ c ∈ st.current, c ≠ [])
  ∧ (∀ c ∈ st.docs, c.length ≤ S)

theorem flushStep_spec (S ov : Nat) (sep : PyStr) (st : MergeState)
    (dlen : Nat) (hdS : dlen ≤ S) (h : MergeInv S sep.length st) :
    ((flushStep S ov sep st dlen).total
        = weight sep.length (flushStep S ov sep st dlen).current)
    ∧ (∀ c ∈ (flushStep S ov sep st dlen).current, c ≠ [])
    ∧ (∀ c ∈ (flushStep S ov sep st dlen).docs, c.length ≤ S)
    ∧ (flushStep S ov sep st dlen).total + dlen
        + (if (flushStep S ov sep st dlen).current.isEmpty then 0
           else sep.length) ≤ S := by
  obtain ⟨hw, hS, hne, hdocs⟩ := h
  unfold flushStep
  by_cases hguard : S < st.total + dlen
      + (if st.current.isEmpty then 0 else sep.length)
  · rw [if_pos hguard]
    by_cases hemp : st.current.isEmpty = true
    · rw [if_pos hemp]
      have hcur : st.current = [] := List.isEmpty_iff.mp hemp
      refine ⟨hw, hne, hdocs, ?_⟩
      rw [hcur] at hw
      simp only [weight] at hw
      simp [hcur, hw, hdS]
    · rw [if_neg hemp]
      have hpop := popLoop_spec S ov sep.length dlen st.current
      rw [← hw] at hpop
      obtain ⟨p1, p2, p3, p4⟩ := hpop
      have hbne : ∀ c ∈ (popLoop S ov sep.length dlen st.current st.total).1,
          c ≠ [] := fun c hc => hne c (p2.subset hc)
      refine ⟨p1, hbne, ?_, ?_⟩
      · intro c hc
        cases hj : joinDocs sep st.current with
        | none => simp only [hj] at hc; exact hdocs c hc
        | some doc =>
            simp only [hj, List.mem_append, List.mem_singleton] at hc
            rcases hc with hc | rfl
            · exact hdocs c hc
            · calc c.length ≤ weight sep.length st.current :=
                    joinDocs_length_le sep st.current c hj
                _ = st.total := hw.symm
                _ ≤ S := hS
      · rcases p4 with p4 | p4
        · by_cases hpe :
              (popLoop S ov sep.length dlen st.current st.total).1.isEmpty = true
          · simp only [hpe, if_true]
            omega
          · simp only [hpe, if_false, Bool.false_eq_true]
            omega
        · have hp1 : (popLoop S ov sep.length dlen st.current st.total).1 = [] :=
            weight_eq_zero sep.length _ hbne (by rw [← p1]; exact p4)
          simp [hp1, p4, hdS]
  · rw [if_neg hguard]
    exact ⟨hw, hne, hdocs, by omega⟩

theorem mergeStep_inv (S ov : Nat) (sep : PyStr) (st : MergeState)
    (d : PyStr) (hd : d ≠ []) (hdS : d.length ≤ S)
    (h : MergeInv S sep.length st) :
    MergeInv S sep.length (mergeStep S ov sep st d) := by
  obtain ⟨f1, f2, f3, f4⟩ := flushStep_spec S ov sep st d.length hdS h
  unfold mergeStep
  refine ⟨?_, ?_, ?_, ?_⟩
  · simp only
    rw [weight_append_singleton, ← f1]
    omega
  · simpa using f4
  · intro c hc
    simp only [List.mem_append, List.mem_singleton] at hc
    rcases hc with hc | rfl
    · exact f2 c hc
    · exact hd
  · exact f3

theorem foldl_mergeStep_inv (S ov : Nat) (sep : PyStr) (splits : List PyStr)
    (h : ∀ p ∈ splits, p ≠ [] ∧ p.length ≤ S) :
    ∀ st : MergeState, MergeInv S sep.length st →
      MergeInv S sep.length (splits.foldl (mergeStep S ov sep) st) := by
  induction splits with
  | nil => intro st hst; simpa using hst
  | cons d rest ih =>
      intro st hst
      rw [List.foldl_cons]
      have hd := h d (List.mem_cons_self d rest)
      exact ih (fun p hp => h p (List.mem_cons_of_mem d hp)) _
        (mergeStep_inv S ov sep st d hd.1 hd.2 hst)

theorem mergeSplits_bounded (S ov : Nat) (sep : PyStr) (splits : List PyStr)
    (h : ∀ p ∈ splits, p ≠ [] ∧ p.length ≤ S) :
    ∀ c ∈ mergeSplits S ov sep splits, c.length ≤ S := by
  have hinv := foldl_mergeStep_inv S ov sep splits h ⟨[], [], 0⟩
    ⟨rfl, Nat.zero_le _, by simp, by simp⟩
  obtain ⟨hw, hS, _, hdocs⟩ := hinv
  intro c hc
  simp only [mergeSplits] at hc
  cases hj : joinDocs sep (splits.foldl (mergeStep S ov sep) ⟨[], [], 0⟩).current
      with
  | none => rw [hj] at hc; exact hdocs c hc
  | some doc =>
      rw [hj] at hc
      simp only [List.mem_append, List.mem_singleton] at hc
      rcases hc with hc | rfl
      · exact hdocs c hc
      · calc c.length
            ≤ weight sep.length
                (splits.foldl (mergeStep S ov sep) ⟨[], [], 0⟩).current :=
              joinDocs_length_le sep _ c hj
          _ ≤ S := by rw [← hw]; exact hS

set_option maxRecDepth 100000 in
/-- Counterexample to C8 as stated: a document that is a single 1001
character paragraph (no paragraph separator anywhere) is emitted as one
chunk of 1001 characters — `CharacterTextSplitter` has no size-based
fallback, so the chunk exceeds the 1000-character maximum. -/
theorem split_text_oversized_counterexample :
    split_text oversizedParagraph = [oversizedParagraph]
    ∧ chunk_size < oversizedParagraph.length := by
  constructor
  · decide
  · decide

/-- C8 amended: the splitter cuts at paragraph (`"\n\n"`) boundaries and
greedily re-merges paragraphs into chunks with a 150-character overlap
budget; chunks stay within the 1000-character maximum whenever every
paragraph is itself at most 1000 characters, but an oversized paragraph is
emitted whole (no size-based fallback), so such a chunk can exceed the
maximum. -/
theorem split_text_bounded (text : PyStr)
    (h : ∀ p ∈ (splitOnSep paragraph_sep text).filter (fun s => s ≠ []),
        p.length ≤ chunk_size) :
    ∀ c ∈ split_text text, c.length ≤ chunk_size := by
  apply mergeSplits_bounded
  intro p hp
  refine ⟨?_, h p hp⟩
  have := List.of_mem_filter hp
  simpa using this

/-- Witness for C8's amended bound: a small two-paragraph document. -/
theorem split_text_bounded_witness :
    ((split_text demoDocText).headD []).length ≤ chunk_size :=
  split_text_bounded demoDocText (by decide) _ (by decide)

end KG

